import Mathlib

/-!
Verification development for the TIBBL online tool (tibblOnline).

The development shallowly embeds the core of the repository:

* the line grammar `parseLine` and the grid builder `parseCodeToGrid`
  from `src/app/routes/reverse.tsx`;
* the command renderer `getTileCommand`, the code generator
  `generateCode` and the rotation handler `handleRotateTile`
  from `src/app/routes/home.tsx`.

Machine strings are modelled with Lean `String` (a list of characters in
this toolchain); all string helpers used by the embedding are defined
below by structural recursion so that every definition evaluates inside
the kernel.
-/

namespace Tibbl

/-- The closed set of tile kinds (the keys of `TILE_INFO` in the source).
Lean keywords `else`, `if`, `function` and `variable` receive a prime. -/
inductive TokenKind where
  | add | subtract | delay | else' | endfunction | endif | endloop
  | function' | functioncall | if' | loop | play | playx | random
  | thread1 | thread2 | thread3 | variable'
deriving DecidableEq, Fintype, Repr

/-- A grid tile: `interface GridTile { type: string; rotation: number }`. -/
structure GridTile where
  type : TokenKind
  rotation : Nat
deriving DecidableEq, Repr

/-- One entry of the vocabulary table:
`interface TileInfo { name; command; rotatable; rotationValues? }`. -/
structure TileInfo where
  name : String
  command : String
  rotatable : Bool
  rotationValues : Option (List String) := none
deriving DecidableEq, Repr

/-- The eight rotation surface values shared by all parameterized kinds. -/
def eightValues : List String := ["1", "2", "3", "4", "5", "6", "7", "8"]

/-- The static vocabulary table `TILE_INFO` of `home.tsx` (lines 39-58).
The table in `reverse.tsx` is identical except for the display name of
`random` (`"X=Random"` there), which no verified component reads. -/
def TILE_INFO : TokenKind → TileInfo
  | .add => { name := "X = X + 1", command := "x = x + 1", rotatable := false }
  | .subtract => { name := "X = X - 1", command := "x = x - 1", rotatable := false }
  | .delay => { name := "Delay", command := "delay", rotatable := true, rotationValues := some eightValues }
  | .else' => { name := "Else", command := "else", rotatable := false }
  | .endfunction => { name := "End Function", command := "end function", rotatable := false }
  | .endif => { name := "End If", command := "end if", rotatable := false }
  | .endloop => { name := "End Loop", command := "end loop", rotatable := false }
  | .function' => { name := "Function", command := "function", rotatable := false }
  | .functioncall => { name := "Call Function", command := "call function", rotatable := false }
  | .if' => { name := "If X <", command := "if x <", rotatable := true, rotationValues := some eightValues }
  | .loop => { name := "Loop", command := "loop", rotatable := true, rotationValues := some eightValues }
  | .play => { name := "Play", command := "play", rotatable := true, rotationValues := some eightValues }
  | .playx => { name := "Play X", command := "play x", rotatable := false }
  | .random => { name := "X = Random", command := "x = random", rotatable := false }
  | .thread1 => { name := "Thread 1", command := "thread 1", rotatable := false }
  | .thread2 => { name := "Thread 2", command := "thread 2", rotatable := false }
  | .thread3 => { name := "Thread 3", command := "thread 3", rotatable := false }
  | .variable' => { name := "X =", command := "x =", rotatable := true, rotationValues := some eightValues }

/-! ### String helpers (kernel-friendly models of the JS operations) -/

/-- Model of `String.prototype.toLowerCase` for the ASCII commands involved. -/
def toLowerStr (s : String) : String := ⟨s.data.map Char.toLower⟩

/-- Model of `String.prototype.trim`: drop whitespace from both ends. -/
def trimStr (s : String) : String :=
  ⟨((s.data.dropWhile Char.isWhitespace).reverse.dropWhile Char.isWhitespace).reverse⟩

/-- Split a character list at every character satisfying `p`
(the semantics of JS `split(sep)` for a one-character separator). -/
def splitOnPred (p : Char → Bool) : List Char → List (List Char)
  | [] => [[]]
  | c :: cs =>
    let rest := splitOnPred p cs
    if p c then [] :: rest
    else
      match rest with
      | r :: rs => (c :: r) :: rs
      | [] => [[c]]

/-- Model of `line.split(/\s+/)` on a trimmed line: maximal whitespace
runs separate the parts, and no part is empty.  (`parseLine` is only ever
invoked on trimmed lines, both in the source and in this development.) -/
def wsSplit (s : String) : List String :=
  ((splitOnPred Char.isWhitespace s.data).map String.mk).filter (fun t => t ≠ "")

/-- Indexing `parts[i]`; the JS `undefined` of an out-of-range access is
modelled by `""`, which no real part can equal (`wsSplit` drops empties). -/
def partAt (parts : List String) (i : Nat) : String := parts.getD i ""

/-- Value of a list of decimal digits. -/
def decValue (cs : List Char) : Nat :=
  cs.foldl (fun acc c => acc * 10 + (c.toNat - 48)) 0

/-- Hexadecimal digit test. -/
def isHexDigit (c : Char) : Bool :=
  c.isDigit || ('a' ≤ c && c ≤ 'f') || ('A' ≤ c && c ≤ 'F')

/-- Value of a hexadecimal digit. -/
def hexVal (c : Char) : Nat :=
  if c.isDigit then c.toNat - 48
  else if 'a' ≤ c && c ≤ 'f' then c.toNat - 87
  else c.toNat - 55

/-- Value of a list of hexadecimal digits. -/
def hexValue (cs : List Char) : Nat :=
  cs.foldl (fun acc c => acc * 16 + hexVal c) 0

/-- Model of JavaScript `parseInt(s)` (radix unspecified) on a
whitespace-free argument: an optional sign, then either a `0x`/`0X`
hexadecimal prefix or the longest decimal-digit prefix; `none` models
`NaN`. -/
def parseIntJS (s : String) : Option Int :=
  let signed : Int × List Char :=
    match s.data with
    | '-' :: r => (-1, r)
    | '+' :: r => (1, r)
    | r => (1, r)
  match signed.2 with
  | '0' :: x :: r =>
    if x == 'x' || x == 'X' then
      let ds := r.takeWhile isHexDigit
      if ds.isEmpty then none else some (signed.1 * (hexValue ds : Int))
    else
      let ds := ('0' :: x :: r).takeWhile Char.isDigit
      if ds.isEmpty then none else some (signed.1 * (decValue ds : Int))
  | r =>
    let ds := r.takeWhile Char.isDigit
    if ds.isEmpty then none else some (signed.1 * (decValue ds : Int))

/-! ### The line grammar (`parseLine`, reverse.tsx lines 189-310) -/

/-- Result record of `parseLine`:
`interface ParseLineResult { success; tile?; error? }`. -/
structure ParseLineResult where
  success : Bool
  tile : Option GridTile := none
  error : Option String := none
deriving DecidableEq, Repr

/-- The `parts[0] === 'thread'` block of `parseLine` (lines 192-206). -/
def parseThread (parts : List String) : ParseLineResult :=
  if parts.length < 2 then
    { success := false, error := some "Thread command requires a thread number (1, 2, or 3)" }
  else if partAt parts 1 = "1" then
    { success := true, tile := some ⟨.thread1, 0⟩ }
  else if partAt parts 1 = "2" then
    { success := true, tile := some ⟨.thread2, 0⟩ }
  else if partAt parts 1 = "3" then
    { success := true, tile := some ⟨.thread3, 0⟩ }
  else
    { success := false, error := some "Thread number must be 1, 2, or 3" }

/-- The `parts[0] === 'loop'` block of `parseLine` (lines 208-217). -/
def parseLoop (parts : List String) : ParseLineResult :=
  if parts.length < 2 then
    { success := false, error := some "Loop command requires a number (1-8)" }
  else
    match parseIntJS (partAt parts 1) with
    | none => { success := false, error := some "Loop number must be between 1 and 8" }
    | some times =>
      if times < 1 ∨ 8 < times then
        { success := false, error := some "Loop number must be between 1 and 8" }
      else
        { success := true, tile := some ⟨.loop, (times - 1).toNat⟩ }

/-- The `parts[0] === 'play'` block of `parseLine` (lines 223-235). -/
def parsePlay (parts : List String) : ParseLineResult :=
  if parts.length < 2 then
    { success := false, error := some "Play command requires a note number (1-8) or x" }
  else if partAt parts 1 = "x" then
    { success := true, tile := some ⟨.playx, 0⟩ }
  else
    match parseIntJS (partAt parts 1) with
    | none => { success := false, error := some "Play note must be between 1 and 8, or x" }
    | some note =>
      if note < 1 ∨ 8 < note then
        { success := false, error := some "Play note must be between 1 and 8, or x" }
      else
        { success := true, tile := some ⟨.play, (note - 1).toNat⟩ }

/-- The `parts[0] === 'delay'` block of `parseLine` (lines 237-246). -/
def parseDelay (parts : List String) : ParseLineResult :=
  if parts.length < 2 then
    { success := false, error := some "Delay command requires a duration (1-8)" }
  else
    match parseIntJS (partAt parts 1) with
    | none => { success := false, error := some "Delay duration must be between 1 and 8" }
    | some duration =>
      if duration < 1 ∨ 8 < duration then
        { success := false, error := some "Delay duration must be between 1 and 8" }
      else
        { success := true, tile := some ⟨.delay, (duration - 1).toNat⟩ }

/-- The `parts[0] === 'x'` block of `parseLine` (lines 248-276). -/
def parseXCmd (parts : List String) : ParseLineResult :=
  if parts.length < 2 ∨ partAt parts 1 ≠ "=" then
    { success := false, error := some "Variable command must be in format \"x = ...\" " }
  else if 3 ≤ parts.length ∧ partAt parts 2 = "random" then
    { success := true, tile := some ⟨.random, 0⟩ }
  else if 5 ≤ parts.length ∧ partAt parts 2 = "x" then
    if partAt parts 3 = "+" ∧ partAt parts 4 = "1" then
      { success := true, tile := some ⟨.add, 0⟩ }
    else if partAt parts 3 = "-" ∧ partAt parts 4 = "1" then
      { success := true, tile := some ⟨.subtract, 0⟩ }
    else
      { success := false, error := some "Variable arithmetic must be \"x = x + 1\" or \"x = x - 1\"" }
  else if 3 ≤ parts.length then
    match parseIntJS (partAt parts 2) with
    | none => { success := false, error := some "Variable value must be between 1 and 8" }
    | some value =>
      if value < 1 ∨ 8 < value then
        { success := false, error := some "Variable value must be between 1 and 8" }
      else
        { success := true, tile := some ⟨.variable', (value - 1).toNat⟩ }
  else
    { success := false, error := some "Invalid variable command" }

/-- The `parts[0] === 'if'` block of `parseLine` (lines 278-287). -/
def parseIfCmd (parts : List String) : ParseLineResult :=
  if parts.length < 4 ∨ partAt parts 1 ≠ "x" ∨ partAt parts 2 ≠ "<" then
    { success := false, error := some "If command must be in format \"if x < number\"" }
  else
    match parseIntJS (partAt parts 3) with
    | none => { success := false, error := some "If condition must be between 1 and 8" }
    | some condition =>
      if condition < 1 ∨ 8 < condition then
        { success := false, error := some "If condition must be between 1 and 8" }
      else
        { success := true, tile := some ⟨.if', (condition - 1).toNat⟩ }

/-- The branch structure of `parseLine`, over the whitespace-split parts
of the line (`const parts = line.split(/\s+/)`).  `partAt parts i`
models `parts[i]` (with `""` for `undefined`); the keyword blocks with
inner structure are factored into the `parse...` helpers above, in
source order.  `line` itself is only read by the final unknown-command
error message. -/
def parseLineParts (line : String) (parts : List String) : ParseLineResult :=
  if partAt parts 0 = "thread" then parseThread parts
  else if partAt parts 0 = "loop" then parseLoop parts
  else if partAt parts 0 = "end" ∧ partAt parts 1 = "loop" then
    { success := true, tile := some ⟨.endloop, 0⟩ }
  else if partAt parts 0 = "play" then parsePlay parts
  else if partAt parts 0 = "delay" then parseDelay parts
  else if partAt parts 0 = "x" then parseXCmd parts
  else if partAt parts 0 = "if" then parseIfCmd parts
  else if partAt parts 0 = "else" then
    { success := true, tile := some ⟨.else', 0⟩ }
  else if partAt parts 0 = "end" ∧ partAt parts 1 = "if" then
    { success := true, tile := some ⟨.endif, 0⟩ }
  else if partAt parts 0 = "function" then
    { success := true, tile := some ⟨.function', 0⟩ }
  else if partAt parts 0 = "end" ∧ partAt parts 1 = "function" then
    { success := true, tile := some ⟨.endfunction, 0⟩ }
  else if partAt parts 0 = "call" ∧ partAt parts 1 = "function" then
    { success := true, tile := some ⟨.functioncall, 0⟩ }
  else
    { success := false, error := some ("Unknown command: \"" ++ line ++ "\"") }

/-- The line grammar `parseLine` of `reverse.tsx` (lines 189-310):
split the line on whitespace and run the branch structure. -/
def parseLine (line : String) : ParseLineResult :=
  parseLineParts line (wsSplit line)

/-! ### The grid and the placement engine (`parseCodeToGrid`, reverse.tsx lines 69-170) -/

/-- The 7 × 5 grid of optional tiles: `(GridTile | null)[][]`. -/
abbrev Grid := List (List (Option GridTile))

/-- `Array(7).fill(null).map(() => Array(5).fill(null))`. -/
def emptyGrid : Grid := List.replicate 7 (List.replicate 5 none)

/-- `grid[row][col] = tile`. -/
def setCell (g : Grid) (row col : Nat) (tile : GridTile) : Grid :=
  g.set row ((g.getD row []).set col (some tile))

/-- Read a cell (the value shown for the cell at `(row, col)`). -/
def getCell (g : Grid) (row col : Nat) : Option GridTile :=
  (g.getD row []).getD col none

/-- The canonical demonstration grid installed for the empty script
(reverse.tsx lines 73-76). -/
def demoGrid : Grid :=
  setCell (setCell (setCell (setCell emptyGrid 0 0 ⟨.thread1, 0⟩)
    0 1 ⟨.loop, 2⟩) 0 2 ⟨.play, 1⟩) 0 3 ⟨.endloop, 0⟩

/-- An entry of `parsedLines`: `{ tile; isThread; lineNum }`. -/
structure Parsed where
  tile : Option GridTile
  isThread : Bool
  lineNum : Nat
deriving DecidableEq, Repr

/-- The line loop of `parseCodeToGrid` (lines 82-101): trim each line,
skip blanks, abort on the first grammar failure with a line-anchored
error, and record tile, thread-marker flag and line number.  The counter
`i` is the zero-based index into the post-filter line array. -/
def parseLines : List String → Nat → Except String (List Parsed)
  | [], _ => .ok []
  | l :: ls, i =>
    let line := trimStr l
    if line = "" then parseLines ls (i + 1)
    else
      let result := parseLine line
      if result.success then
        let isThread : Bool :=
          match result.tile with
          | some t => t.type = TokenKind.thread1 || t.type = TokenKind.thread2 ||
              t.type = TokenKind.thread3
          | none => false
        match parseLines ls (i + 1) with
        | .error e => .error e
        | .ok rest => .ok ({ tile := result.tile, isThread := isThread, lineNum := i + 1 } :: rest)
      else
        .error ("Line " ++ toString (i + 1) ++ ": " ++ result.error.getD "undefined")

/-- `codeText.toLowerCase().trim().split('\n').filter(line => line.trim())`. -/
def preprocess (s : String) : List String :=
  ((splitOnPred (fun c => c == '\n') (trimStr (toLowerStr s)).data).map String.mk).filter
    (fun l => trimStr l ≠ "")

/-- `const totalTiles = parsedLines.filter(p => p.tile !== null).length`. -/
def totalTiles (ps : List Parsed) : Nat := (ps.filter (fun p => p.tile.isSome)).length

/-- `const hasThreads = parsedLines.some(p => p.isThread)`. -/
def hasThreads (ps : List Parsed) : Bool := ps.any (fun p => p.isThread)

/-- The tokens of the parsed lines, in order. -/
def tilesOf (ps : List Parsed) : List GridTile := ps.filterMap (fun p => p.tile)

/-- Write a list of tiles into consecutive cells in row-major order,
starting at flat index `k` (cell `(k / 5, k % 5)`). -/
def writeTiles (g : Grid) (k : Nat) : List GridTile → Grid
  | [] => g
  | t :: ts => writeTiles (setCell g (k / 5) (k % 5) t) (k + 1) ts

/-- A newline join, inverse of splitting on a newline. -/
def joinNl : List String → String
  | [] => ""
  | [l] => l
  | l :: ls => l ++ "\n" ++ joinNl ls

/-- `const maxGridCapacity = 7 * 5`. -/
def maxGridCapacity : Nat := 7 * 5

/-- The thread-row cursor advance shared by the simulation and the real
pass: `if (useThreadRows && parsed.isThread && col > 0) { row++; col = 0 }`
(the simulation applies it with `utr = true` unconditionally). -/
def threadAdvance (utr : Bool) (p : Parsed) (row col : Nat) : Nat × Nat :=
  if utr ∧ p.isThread ∧ 0 < col then (row + 1, 0) else (row, col)

/-- The column-wrap cursor advance: `if (col >= 5) { row++; col = 0 }`. -/
def wrapAdvance (rc : Nat × Nat) : Nat × Nat :=
  if 5 ≤ rc.2 then (rc.1 + 1, 0) else rc

/-- The dry-run layout simulation (reverse.tsx lines 110-134), which
applies the stricter thread-row rule without writing cells.  Beyond the
source it also records, as ghost data, the sequence of cursor positions
at which the real pass would place tiles; the source state is the
returned `(simulatedRow, simulatedCol)` pair. -/
def simulate : List Parsed → Nat → Nat → List (Nat × Nat) → (Nat × Nat) × List (Nat × Nat)
  | [], row, col, acc => ((row, col), acc)
  | p :: ps, row, col, acc =>
    match p.tile with
    | none => simulate ps row col acc
    | some _ =>
      let rc := threadAdvance true p row col
      if 7 ≤ rc.1 then (rc, acc)
      else
        let rc2 := wrapAdvance rc
        if rc2.1 < 7 then simulate ps rc2.1 (rc2.2 + 1) (acc ++ [rc2])
        else simulate ps rc2.1 rc2.2 acc

/-- The overflow error message of the real placement pass. -/
def overflowMsg : String := "Code exceeds grid size (7 rows maximum)"

/-- Outcome of the real placement pass: the `{success, grid, error}`
fields of the source result, plus the ghost `positions` trace of the
cells written, used to compare the pass with the simulation. -/
structure PlaceOutcome where
  success : Bool
  grid : Grid
  error : Option String
  positions : List (Nat × Nat)
deriving DecidableEq, Repr

/-- The real placement pass (reverse.tsx lines 139-167): thread-row
advance when `useThreadRows`, overflow checks, write, column advance. -/
def placeTiles (utr : Bool) : List Parsed → Nat → Nat → Grid → List (Nat × Nat) → PlaceOutcome
  | [], _, _, g, acc => { success := true, grid := g, error := none, positions := acc }
  | p :: ps, row, col, g, acc =>
    match p.tile with
    | none => placeTiles utr ps row col g acc
    | some tile =>
      let rc := threadAdvance utr p row col
      if 7 ≤ rc.1 then
        { success := false, grid := g, error := some overflowMsg, positions := acc }
      else if 5 ≤ rc.2 then
        if 7 ≤ rc.1 + 1 then
          { success := false, grid := g, error := some overflowMsg, positions := acc }
        else
          placeTiles utr ps (rc.1 + 1) 1 (setCell g (rc.1 + 1) 0 tile) (acc ++ [(rc.1 + 1, 0)])
      else
        placeTiles utr ps rc.1 (rc.2 + 1) (setCell g rc.1 rc.2 tile) (acc ++ [(rc.1, rc.2)])

/-- The layout-strategy selection (reverse.tsx lines 106-137): the
stricter layout is considered only when thread markers are present and
the tiles fit the capacity, and is adopted exactly when the dry run
finishes strictly below row 7. -/
def useThreadRowsFor (ps : List Parsed) : Bool :=
  if hasThreads ps ∧ totalTiles ps ≤ maxGridCapacity then
    decide ((simulate ps 0 0 []).1.1 < 7)
  else false

/-- `interface ParseResult { success; grid; error? }`. -/
structure ParseResult where
  success : Bool
  grid : Grid
  error : Option String
deriving DecidableEq, Repr

/-- The whole placement engine `parseCodeToGrid` (reverse.tsx lines
69-170): demonstration grid for a blank script, line parsing with
short-circuit errors, layout-strategy selection, then the real pass. -/
def parseCodeToGrid (codeText : String) : ParseResult :=
  if trimStr codeText = "" then
    { success := true, grid := demoGrid, error := none }
  else
    match parseLines (preprocess codeText) 0 with
    | .error e => { success := false, grid := emptyGrid, error := some e }
    | .ok ps =>
      let out := placeTiles (useThreadRowsFor ps) ps 0 0 emptyGrid []
      { success := out.success, grid := out.grid, error := out.error }

/-! ### The synthesizer side (`home.tsx`) -/

/-- The canonical command renderer `getTileCommand` (home.tsx lines
207-229): non-rotatable kinds render their vocabulary command, rotatable
kinds substitute `rotationValues[rotation]` (with `"1"` for an
out-of-range access) into the per-kind template. -/
def getTileCommand (tile : GridTile) : String :=
  let info := TILE_INFO tile.type
  if info.rotatable = false then info.command
  else
    let rotationValue := ((info.rotationValues.getD []).getD tile.rotation "1")
    match tile.type with
    | .play => "play " ++ rotationValue
    | .loop => "loop " ++ rotationValue ++ " times"
    | .delay => "delay " ++ rotationValue
    | .variable' => "x = " ++ rotationValue
    | .if' => "if x < " ++ rotationValue
    | _ => info.command

/-- The tile-level core of `handleRotateTile` (home.tsx lines 170-181):
rotatable tiles cycle `rotation` modulo `rotationValues.length || 8`,
other tiles are left unchanged. -/
def rotateTile (tile : GridTile) : GridTile :=
  if (TILE_INFO tile.type).rotatable then
    let maxRotation :=
      match (TILE_INFO tile.type).rotationValues with
      | some vs => if vs.length = 0 then 8 else vs.length
      | none => 8
    { tile with rotation := (tile.rotation + 1) % maxRotation }
  else tile

/-- `threads[currentThread].push(command)`. -/
def pushThread (threads : List (List String)) (i : Nat) (cmd : String) : List (List String) :=
  threads.set i ((threads.getD i []) ++ [cmd])

/-- The per-cell body of `generateCode` (home.tsx lines 237-248): render
the command, switch `currentThread` on a thread marker, then push. -/
def generateCodeCell (tile : GridTile) (st : List (List String) × Nat) :
    List (List String) × Nat :=
  let command := getTileCommand tile
  let currentThread :=
    if tile.type = TokenKind.thread1 then 0
    else if tile.type = TokenKind.thread2 then 1
    else if tile.type = TokenKind.thread3 then 2
    else st.2
  (pushThread st.1 currentThread command, currentThread)

/-- The script synthesizer `generateCode` (home.tsx lines 231-253): a
row-major double loop over the grid cells starting from thread 0. -/
def generateCode (grid : Grid) : List (List String) :=
  (grid.foldl (fun st rowCells =>
    rowCells.foldl (fun st cell =>
      match cell with
      | some tile => generateCodeCell tile st
      | none => st) st) ([[], [], []], 0)).1

/-- The thread a tile switches into (identity for non-markers). -/
def switchThread (ct : Nat) (tile : GridTile) : Nat :=
  match tile.type with
  | .thread1 => 0
  | .thread2 => 1
  | .thread3 => 2
  | _ => ct

/-- The non-empty cells of the grid in row-major order. -/
def gridCellsRowMajor (grid : Grid) : List GridTile :=
  (grid.map (fun row => row.filterMap id)).flatten

/-- The claim-level description of the synthesizer: fold over the
non-empty cells in row-major order, appending each command to the thread
the tile switches into. -/
def synthSpec (grid : Grid) : List (List String) :=
  ((gridCellsRowMajor grid).foldl (fun st tile =>
    let ct := switchThread st.2 tile
    (pushThread st.1 ct (getTileCommand tile), ct)) ([[], [], []], 0)).1

/-! ### Helper lemmas -/

/-- The per-cell step of `generateCode` pushes the rendered command to the
thread the tile switches into. -/
lemma generateCodeCell_eq (tile : GridTile) (st : List (List String) × Nat) :
    generateCodeCell tile st =
      (pushThread st.1 (switchThread st.2 tile) (getTileCommand tile), switchThread st.2 tile) := by
  rcases tile with ⟨ty, r⟩
  cases ty <;> rfl

/-- The inner column loop of `generateCode` is a fold over the non-empty
cells of the row. -/
lemma generateCode_row_eq (rowCells : List (Option GridTile)) (st : List (List String) × Nat) :
    rowCells.foldl (fun st cell => match cell with
      | some tile => generateCodeCell tile st
      | none => st) st =
    (rowCells.filterMap id).foldl (fun st tile => generateCodeCell tile st) st := by
  induction rowCells generalizing st with
  | nil => rfl
  | cons c cs ih => cases c <;> simp [List.filterMap_cons, ih]

/-- The param invariant of the data model: `0 <= param <= 7`, and 0 for
non-parameterized (non-rotatable) kinds. -/
def tileInv (t : GridTile) : Prop :=
  t.rotation ≤ 7 ∧ ((TILE_INFO t.type).rotatable = false → t.rotation = 0)

/-- Tiles produced by the `thread` block satisfy the param invariant. -/
lemma parseThread_inv (parts : List String) (t : GridTile)
    (h : (parseThread parts).tile = some t) : tileInv t := by
  unfold parseThread at h
  repeat' split at h
  all_goals
    first
    | exact Option.noConfusion h
    | (injection h with h; subst h; refine ⟨?_, ?_⟩ <;> simp [TILE_INFO] <;> omega)

/-- Tiles produced by the `loop` block satisfy the param invariant. -/
lemma parseLoop_inv (parts : List String) (t : GridTile)
    (h : (parseLoop parts).tile = some t) : tileInv t := by
  unfold parseLoop at h
  repeat' split at h
  all_goals
    first
    | exact Option.noConfusion h
    | (injection h with h; subst h; refine ⟨?_, ?_⟩ <;> simp [TILE_INFO] <;> omega)

/-- Tiles produced by the `play` block satisfy the param invariant. -/
lemma parsePlay_inv (parts : List String) (t : GridTile)
    (h : (parsePlay parts).tile = some t) : tileInv t := by
  unfold parsePlay at h
  repeat' split at h
  all_goals
    first
    | exact Option.noConfusion h
    | (injection h with h; subst h; refine ⟨?_, ?_⟩ <;> simp [TILE_INFO] <;> omega)

/-- Tiles produced by the `delay` block satisfy the param invariant. -/
lemma parseDelay_inv (parts : List String) (t : GridTile)
    (h : (parseDelay parts).tile = some t) : tileInv t := by
  unfold parseDelay at h
  repeat' split at h
  all_goals
    first
    | exact Option.noConfusion h
    | (injection h with h; subst h; refine ⟨?_, ?_⟩ <;> simp [TILE_INFO] <;> omega)

/-- Tiles produced by the `x = ...` block satisfy the param invariant. -/
lemma parseXCmd_inv (parts : List String) (t : GridTile)
    (h : (parseXCmd parts).tile = some t) : tileInv t := by
  unfold parseXCmd at h
  repeat' split at h
  all_goals
    first
    | exact Option.noConfusion h
    | (injection h with h; subst h; refine ⟨?_, ?_⟩ <;> simp [TILE_INFO] <;> omega)

/-- Tiles produced by the `if` block satisfy the param invariant. -/
lemma parseIfCmd_inv (parts : List String) (t : GridTile)
    (h : (parseIfCmd parts).tile = some t) : tileInv t := by
  unfold parseIfCmd at h
  repeat' split at h
  all_goals
    first
    | exact Option.noConfusion h
    | (injection h with h; subst h; refine ⟨?_, ?_⟩ <;> simp [TILE_INFO] <;> omega)

/-- Every error the real placement pass emits is the overflow error. -/
lemma placeTiles_error_overflow (utr : Bool) (ps : List Parsed) :
    ∀ (row col : Nat) (g : Grid) (acc : List (Nat × Nat)) (e : String),
      (placeTiles utr ps row col g acc).error = some e → e = overflowMsg := by
  induction ps with
  | nil => intro row col g acc e h; simp [placeTiles] at h
  | cons p ps ih =>
    intro row col g acc e h
    simp only [placeTiles] at h
    split at h
    · exact ih _ _ _ _ _ h
    · split at h
      · injection h with h; exact h.symm
      · split at h
        · split at h
          · injection h with h; exact h.symm
          · exact ih _ _ _ _ _ h
        · exact ih _ _ _ _ _ h

/-- The thread-row advance never decreases the row. -/
lemma threadAdvance_fst_ge (utr : Bool) (p : Parsed) (row col : Nat) :
    row ≤ (threadAdvance utr p row col).1 := by
  unfold threadAdvance; split <;> simp

/-- The column wrap never decreases the row. -/
lemma wrapAdvance_fst_ge (rc : Nat × Nat) : rc.1 ≤ (wrapAdvance rc).1 := by
  unfold wrapAdvance; split <;> simp

/-- Positive case of the column wrap. -/
lemma wrapAdvance_pos {rc : Nat × Nat} (h : 5 ≤ rc.2) : wrapAdvance rc = (rc.1 + 1, 0) := by
  unfold wrapAdvance; rw [if_pos h]

/-- Negative case of the column wrap. -/
lemma wrapAdvance_neg {rc : Nat × Nat} (h : ¬ 5 ≤ rc.2) : wrapAdvance rc = rc := by
  unfold wrapAdvance; rw [if_neg h]

/-- The simulated row cursor never decreases. -/
lemma simulate_row_mono (ps : List Parsed) :
    ∀ (row col : Nat) (acc : List (Nat × Nat)), row ≤ (simulate ps row col acc).1.1 := by
  induction ps with
  | nil => intro row col acc; simp [simulate]
  | cons p ps ih =>
    intro row col acc
    simp only [simulate]
    split
    · exact ih row col acc
    · split
      · simpa using threadAdvance_fst_ge true p row col
      · split
        · exact le_trans (threadAdvance_fst_ge true p row col)
            (le_trans (wrapAdvance_fst_ge _) (ih _ _ _))
        · exact le_trans (threadAdvance_fst_ge true p row col)
            (le_trans (wrapAdvance_fst_ge _) (ih _ _ _))

/-- Every position the simulation records lies strictly below row 7. -/
lemma simulate_positions_lt (ps : List Parsed) :
    ∀ (row col : Nat) (acc : List (Nat × Nat)), (∀ q ∈ acc, q.1 < 7) →
      ∀ q ∈ (simulate ps row col acc).2, q.1 < 7 := by
  induction ps with
  | nil => intro row col acc hacc; simpa [simulate] using hacc
  | cons p ps ih =>
    intro row col acc hacc
    simp only [simulate]
    split
    · exact ih _ _ _ hacc
    · split
      · simpa using hacc
      · split
        next h7 =>
          apply ih
          intro q hq
          rcases List.mem_append.1 hq with hq | hq
          · exact hacc q hq
          · rcases List.mem_singleton.1 hq with rfl
            exact h7
        next => exact ih _ _ _ hacc

/-- When the simulation finishes strictly below row 7, the real pass with
the stricter rule succeeds and writes exactly the simulated positions. -/
lemma place_sim_agree (ps : List Parsed) :
    ∀ (row col : Nat) (g : Grid) (acc : List (Nat × Nat)),
      (simulate ps row col acc).1.1 < 7 →
      (placeTiles true ps row col g acc).success = true ∧
      (placeTiles true ps row col g acc).error = none ∧
      (placeTiles true ps row col g acc).positions = (simulate ps row col acc).2 := by
  induction ps with
  | nil => intro row col g acc h; simp [simulate, placeTiles]
  | cons p ps ih =>
    intro row col g acc h
    rcases hp : p.tile with _ | tile
    · simp only [simulate, placeTiles, hp] at h ⊢
      exact ih _ _ _ _ h
    · simp only [simulate, placeTiles, hp] at h ⊢
      by_cases h7 : 7 ≤ (threadAdvance true p row col).1
      · rw [if_pos h7] at h
        dsimp only at h
        omega
      · simp only [if_neg h7] at h ⊢
        by_cases hc : 5 ≤ (threadAdvance true p row col).2
        · simp only [wrapAdvance_pos hc, if_pos hc] at h ⊢
          try dsimp only at h ⊢
          by_cases h71 : (threadAdvance true p row col).1 + 1 < 7
          · simp only [if_pos h71,
              if_neg (show ¬ 7 ≤ (threadAdvance true p row col).1 + 1 by omega)] at h ⊢
            exact ih _ _ _ _ h
          · simp only [if_neg h71] at h
            have hm := simulate_row_mono ps ((threadAdvance true p row col).1 + 1) 0 acc
            omega
        · simp only [wrapAdvance_neg hc, if_neg hc] at h ⊢
          simp only [if_pos (show (threadAdvance true p row col).1 < 7 by omega)] at h ⊢
          exact ih _ _ _ _ h

/-- When no tile is recorded, the line does not count towards
`totalTiles`. -/
lemma totalTiles_cons_none {p : Parsed} (hp : p.tile = none) (ps : List Parsed) :
    totalTiles (p :: ps) = totalTiles ps := by
  simp [totalTiles, List.filter_cons, hp]

/-- A line with a tile adds one to `totalTiles`. -/
lemma totalTiles_cons_some {p : Parsed} {t : GridTile} (hp : p.tile = some t)
    (ps : List Parsed) : totalTiles (p :: ps) = totalTiles ps + 1 := by
  simp [totalTiles, List.filter_cons, hp]

/-- `totalTiles` counts exactly the tokens extracted by `tilesOf`. -/
lemma totalTiles_eq_length (ps : List Parsed) : totalTiles ps = (tilesOf ps).length := by
  induction ps with
  | nil => rfl
  | cons p ps ih =>
    rcases hp : p.tile with _ | t
    · rw [totalTiles_cons_none hp, ih]
      simp [tilesOf, List.filterMap_cons, hp]
    · rw [totalTiles_cons_some hp, ih]
      simp [tilesOf, List.filterMap_cons, hp]

/-- The thread-row advance is the identity when `useThreadRows` is off. -/
lemma threadAdvance_false (p : Parsed) (row col : Nat) :
    threadAdvance false p row col = (row, col) := by
  simp [threadAdvance]

/-- Shape invariant of the grid value: 7 rows of 5 cells. -/
def gridWF (g : Grid) : Prop := g.length = 7 ∧ ∀ row ∈ g, row.length = 5

/-- The empty grid is well-formed. -/
lemma gridWF_empty : gridWF emptyGrid := by
  constructor
  · simp [emptyGrid]
  · intro row hrow
    rcases (List.mem_replicate.1 hrow).2 with rfl
    simp

/-- Writing one in-range cell preserves the grid shape. -/
lemma gridWF_setCell {g : Grid} (hwf : gridWF g) {r : Nat} (hr : r < 7) (c : Nat)
    (t : GridTile) : gridWF (setCell g r c t) := by
  obtain ⟨h7, hrows⟩ := hwf
  refine ⟨by simpa [setCell] using h7, ?_⟩
  intro row hrow
  rcases List.mem_or_eq_of_mem_set hrow with hmem | rfl
  · exact hrows _ hmem
  · rw [List.length_set]
    have hget : g.getD r [] = g.get ⟨r, by omega⟩ := by
      simp [List.getD_eq_getElem?_getD, List.getElem?_eq_getElem (by omega : r < g.length)]
    rw [hget]
    exact hrows _ (List.get_mem g r _)

/-- Reading back the cell just written. -/
lemma getCell_setCell_self {g : Grid} (hwf : gridWF g) {r c : Nat} (hr : r < 7) (hc : c < 5)
    (t : GridTile) : getCell (setCell g r c t) r c = some t := by
  obtain ⟨h7, hrows⟩ := hwf
  have hrl : r < g.length := by omega
  have hcl : c < (g.getD r []).length := by
    have hget : g.getD r [] = g.get ⟨r, hrl⟩ := by
      simp [List.getD_eq_getElem?_getD, List.getElem?_eq_getElem hrl]
    rw [hget, hrows _ (List.get_mem g r _)]
    omega
  unfold getCell setCell
  simp only [List.getD_eq_getElem?_getD]
  rw [List.getElem?_set_self hrl]
  simp only [Option.getD_some]
  rw [List.getElem?_set_self (by simpa [List.getD_eq_getElem?_getD] using hcl)]
  rfl

/-- Writing one cell leaves every other cell unchanged. -/
lemma getCell_setCell_other {g : Grid} {r c r' c' : Nat} (t : GridTile)
    (hne : r ≠ r' ∨ c ≠ c') : getCell (setCell g r c t) r' c' = getCell g r' c' := by
  unfold getCell setCell
  simp only [List.getD_eq_getElem?_getD]
  rcases eq_or_ne r r' with rfl | hrr
  · have hcc : c ≠ c' := hne.resolve_left (fun h => h rfl)
    by_cases hrl : r < g.length
    · rw [List.getElem?_set_self hrl]
      simp only [Option.getD_some]
      rw [List.getElem?_set_ne hcc]
    · rw [List.set_eq_of_length_le (by omega)]
  · rw [List.getElem?_set_ne hrr]

/-- Every cell of the empty grid is empty. -/
lemma getCell_empty (r c : Nat) : getCell emptyGrid r c = none := by
  unfold getCell emptyGrid
  simp only [List.getD_eq_getElem?_getD]
  rw [List.getElem?_replicate]
  split
  · simp only [Option.getD_some]
    rw [List.getElem?_replicate]
    split <;> rfl
  · rfl

/-- Writing from flat index `k` onward does not touch flat index `j`
outside `[k, k + length)`. -/
lemma writeTiles_untouched (ts : List GridTile) :
    ∀ (g : Grid) (k j : Nat), (j < k ∨ k + ts.length ≤ j) →
      getCell (writeTiles g k ts) (j / 5) (j % 5) = getCell g (j / 5) (j % 5) := by
  induction ts with
  | nil => intro g k j _; rfl
  | cons t ts ih =>
    intro g k j h
    simp only [List.length_cons] at h
    unfold writeTiles
    rw [ih _ (k + 1) j (by omega)]
    apply getCell_setCell_other
    have hne : j ≠ k := by omega
    by_contra hcon
    push_neg at hcon
    obtain ⟨h1, h2⟩ := hcon
    exact hne (by omega)

/-- Reading back the `i`-th of the tiles written from flat index `k`. -/
lemma writeTiles_get (ts : List GridTile) :
    ∀ (g : Grid) (k i : Nat), gridWF g → k + ts.length ≤ 35 → (hi : i < ts.length) →
      getCell (writeTiles g k ts) ((k + i) / 5) ((k + i) % 5) = some (ts.get ⟨i, hi⟩) := by
  induction ts with
  | nil => intro g k i _ _ hi; exact absurd hi (by simp)
  | cons t ts ih =>
    intro g k i hwf hle hi
    simp only [List.length_cons] at hle hi
    unfold writeTiles
    rcases i with _ | i
    · rw [show k + 0 = k from rfl]
      rw [writeTiles_untouched ts _ (k + 1) k (by omega)]
      exact getCell_setCell_self hwf (by omega) (by omega) t
    · have hrec := ih (setCell g (k / 5) (k % 5) t) (k + 1) i
        (gridWF_setCell hwf (by omega) _ t) (by omega) (by omega)
      rw [show k + (i + 1) = k + 1 + i by omega]
      exact hrec

/-- With `useThreadRows` off and the tiles within capacity, the real pass
succeeds and the grid is the row-major write of the tokens. -/
lemma placeTiles_false_ok (ps : List Parsed) :
    ∀ (row col : Nat) (g : Grid) (acc : List (Nat × Nat)),
      col ≤ 5 → 5 * row + col + totalTiles ps ≤ 35 →
      (placeTiles false ps row col g acc).success = true ∧
      (placeTiles false ps row col g acc).error = none ∧
      (placeTiles false ps row col g acc).grid = writeTiles g (5 * row + col) (tilesOf ps) := by
  induction ps with
  | nil => intro row col g acc _ _; exact ⟨rfl, rfl, rfl⟩
  | cons p ps ih =>
    intro row col g acc hcol hcap
    rcases hp : p.tile with _ | t
    · simp only [placeTiles, hp]
      rw [totalTiles_cons_none hp] at hcap
      have := ih row col g acc hcol hcap
      simpa [tilesOf, List.filterMap_cons, hp] using this
    · rw [totalTiles_cons_some hp] at hcap
      simp only [placeTiles, hp, threadAdvance_false]
      try dsimp only
      rw [if_neg (show ¬ 7 ≤ row by omega)]
      by_cases hc5 : 5 ≤ col
      · have hcol5 : col = 5 := by omega
        subst hcol5
        rw [if_pos hc5, if_neg (show ¬ 7 ≤ row + 1 by omega)]
        obtain ⟨hs, he, hg⟩ :=
          ih (row + 1) 1 (setCell g (row + 1) 0 t) (acc ++ [(row + 1, 0)]) (by omega) (by omega)
        refine ⟨hs, he, ?_⟩
        rw [hg]
        have e1 : (5 * row + 5) / 5 = row + 1 := by omega
        have e2 : (5 * row + 5) % 5 = 0 := by omega
        have e3 : 5 * (row + 1) + 1 = 5 * row + 5 + 1 := by omega
        simp only [tilesOf, List.filterMap_cons, hp, writeTiles, e1, e2, e3]
      · rw [if_neg hc5]
        obtain ⟨hs, he, hg⟩ :=
          ih row (col + 1) (setCell g row col t) (acc ++ [(row, col)]) (by omega) (by omega)
        refine ⟨hs, he, ?_⟩
        rw [hg]
        have e1 : (5 * row + col) / 5 = row := by omega
        have e2 : (5 * row + col) % 5 = col := by omega
        have e3 : 5 * row + (col + 1) = 5 * row + col + 1 := by omega
        simp only [tilesOf, List.filterMap_cons, hp, writeTiles, e1, e2, e3]

/-- With `useThreadRows` off and strictly more tiles than cells left, the
real pass always fails with the overflow error. -/
lemma placeTiles_false_overflow (ps : List Parsed) :
    ∀ (row col : Nat) (g : Grid) (acc : List (Nat × Nat)),
      col ≤ 5 → 5 * row + col ≤ 35 → 35 < 5 * row + col + totalTiles ps →
      (placeTiles false ps row col g acc).success = false ∧
      (placeTiles false ps row col g acc).error = some overflowMsg := by
  induction ps with
  | nil =>
    intro row col g acc _ _ hgt
    rw [show totalTiles [] = 0 from rfl] at hgt
    omega
  | cons p ps ih =>
    intro row col g acc hcol hle hgt
    rcases hp : p.tile with _ | t
    · simp only [placeTiles, hp]
      rw [totalTiles_cons_none hp] at hgt
      exact ih row col g acc hcol hle hgt
    · rw [totalTiles_cons_some hp] at hgt
      simp only [placeTiles, hp, threadAdvance_false]
      try dsimp only
      by_cases h35 : 5 * row + col = 35
      · by_cases hc5 : 5 ≤ col
        · rw [if_neg (show ¬ 7 ≤ row by omega), if_pos hc5,
            if_pos (show 7 ≤ row + 1 by omega)]
          exact ⟨rfl, rfl⟩
        · rw [if_pos (show 7 ≤ row by omega)]
          exact ⟨rfl, rfl⟩
      · rw [if_neg (show ¬ 7 ≤ row by omega)]
        by_cases hc5 : 5 ≤ col
        · rw [if_pos hc5, if_neg (show ¬ 7 ≤ row + 1 by omega)]
          exact ih (row + 1) 1 _ _ (by omega) (by omega) (by omega)
        · rw [if_neg hc5]
          exact ih row (col + 1) _ _ (by omega) (by omega) (by omega)

/-- Every line the preprocessing keeps is non-blank. -/
lemma mem_preprocess_trim_ne (s l : String) (h : l ∈ preprocess s) : trimStr l ≠ "" := by
  unfold preprocess at h
  simpa using (List.mem_filter.1 h).2

/-- The line loop fails on the first grammar failure, with the error
anchored to that line's one-based position, regardless of the suffix. -/
lemma parseLines_first_error (suf : List String) (bad : String) (e : String)
    (hbad : trimStr bad ≠ "") (hfail : (parseLine (trimStr bad)).success = false)
    (herr : (parseLine (trimStr bad)).error = some e) :
    ∀ (pre : List String) (i : Nat),
      (∀ l ∈ pre, trimStr l ≠ "" ∧ (parseLine (trimStr l)).success = true) →
      parseLines (pre ++ bad :: suf) i =
        .error ("Line " ++ toString (i + pre.length + 1) ++ ": " ++ e) := by
  intro pre
  induction pre with
  | nil =>
    intro i _
    simp only [List.nil_append, parseLines]
    rw [if_neg hbad, if_neg (by simp [hfail])]
    rw [herr]
    simp
  | cons l pre ih =>
    intro i hpre
    obtain ⟨hl, hsucc⟩ := hpre l (List.mem_cons_self l pre)
    simp only [List.cons_append, parseLines]
    rw [if_neg hl, if_pos hsucc]
    simp only [List.append_eq]
    rw [ih (i + 1) (fun l' hl' => hpre l' (List.mem_cons_of_mem l hl'))]
    rw [show i + 1 + pre.length + 1 = i + (l :: pre).length + 1 by
      simp only [List.length_cons]; omega]

/-! ### Claims -/

/-- Claim C2: whenever the dry-run simulation finishes with its row
cursor strictly below `ROWS = 7` (and thread markers are present within
capacity, so `useThreadRows` is set to `true`), the real placement pass
under the same stricter rule succeeds without the overflow error, writes
exactly the simulated sequence of `(row, col)` cursor positions, and
never reaches row 7. -/
theorem claimC2_simulationMatchesPlacement :
    ∀ ps : List Parsed,
      hasThreads ps = true →
      totalTiles ps ≤ maxGridCapacity →
      (simulate ps 0 0 []).1.1 < 7 →
      useThreadRowsFor ps = true ∧
      (placeTiles true ps 0 0 emptyGrid []).success = true ∧
      (placeTiles true ps 0 0 emptyGrid []).error = none ∧
      (placeTiles true ps 0 0 emptyGrid []).positions = (simulate ps 0 0 []).2 ∧
      ∀ q ∈ (placeTiles true ps 0 0 emptyGrid []).positions, q.1 < 7 := by
  intro ps hth htot hsim
  obtain ⟨hs, he, hpos⟩ := place_sim_agree ps 0 0 emptyGrid [] hsim
  refine ⟨?_, hs, he, hpos, ?_⟩
  · unfold useThreadRowsFor
    rw [if_pos ⟨hth, htot⟩]
    simpa using hsim
  · rw [hpos]
    exact simulate_positions_lt ps 0 0 [] (by simp)

/-- A two-token sequence, `play 1` then a `thread 2` marker away from
column 0, exercising the stricter thread-row rule. -/
def threadedSample : List Parsed :=
  [{ tile := some ⟨.play, 0⟩, isThread := false, lineNum := 1 },
   { tile := some ⟨.thread2, 0⟩, isThread := true, lineNum := 2 }]

/-- Witness for claim C2, at a sequence whose `thread 2` marker sits at
column 1 so the simulation consumes an extra row. -/
theorem claimC2_simulationMatchesPlacement_witness :
    hasThreads threadedSample = true ∧
    totalTiles threadedSample ≤ maxGridCapacity ∧
    (simulate threadedSample 0 0 []).1.1 < 7 ∧
    (useThreadRowsFor threadedSample = true ∧
      (placeTiles true threadedSample 0 0 emptyGrid []).success = true ∧
      (placeTiles true threadedSample 0 0 emptyGrid []).error = none ∧
      (placeTiles true threadedSample 0 0 emptyGrid []).positions =
        (simulate threadedSample 0 0 []).2 ∧
      ∀ q ∈ (placeTiles true threadedSample 0 0 emptyGrid []).positions, q.1 < 7) :=
  ⟨by decide, by decide, by decide,
    claimC2_simulationMatchesPlacement threadedSample (by decide) (by decide) (by decide)⟩

/-- Claim C10: grammar failures are atomic with respect to the grid:
every error result of the placement engine either carries the entirely
empty grid (the case of every `Line <n>: <reason>` grammar error, since
all lines are parsed before any placement begins) or is the overflow
error — so only the overflow error can return a partially populated
grid. -/
theorem claimC10_grammarErrorEmptyGrid :
    ∀ (s e : String), (parseCodeToGrid s).error = some e →
      (parseCodeToGrid s).grid = emptyGrid ∨ e = overflowMsg := by
  intro s e h
  unfold parseCodeToGrid at h ⊢
  by_cases htrim : trimStr s = ""
  · rw [if_pos htrim] at h
    exact absurd h (by simp)
  · rw [if_neg htrim] at h ⊢
    rcases hp : parseLines (preprocess s) 0 with e' | ps
    · exact Or.inl rfl
    · rw [hp] at h
      exact Or.inr (placeTiles_error_overflow _ _ _ _ _ _ _ h)

/-- Witness for claim C10, at the unparsable script `bogus`. -/
theorem claimC10_grammarErrorEmptyGrid_witness :
    (parseCodeToGrid "bogus").error = some "Line 1: Unknown command: \"bogus\"" ∧
    ((parseCodeToGrid "bogus").grid = emptyGrid ∨
      "Line 1: Unknown command: \"bogus\"" = overflowMsg) :=
  ⟨by decide, claimC10_grammarErrorEmptyGrid "bogus" _ (by decide)⟩

/-- Claim C4: a script whose lines all parse and that contains more than
`ROWS * COLS = 35` recognized command lines always fails with the
overflow error `Code exceeds grid size (7 rows maximum)` — regardless of
thread markers (the stricter layout is skipped above capacity) — and
never reports success. -/
theorem claimC4_overflowOnTooManyCommands :
    ∀ (s : String) (ps : List Parsed),
      trimStr s ≠ "" →
      parseLines (preprocess s) 0 = .ok ps →
      maxGridCapacity < totalTiles ps →
      (parseCodeToGrid s).success = false ∧
      (parseCodeToGrid s).error = some "Code exceeds grid size (7 rows maximum)" := by
  intro s ps htrim hok htot
  have htot' : 35 < totalTiles ps := htot
  have hutr : useThreadRowsFor ps = false := by
    unfold useThreadRowsFor
    rw [if_neg]
    rintro ⟨-, h2⟩
    have h2' : totalTiles ps ≤ 35 := h2
    omega
  unfold parseCodeToGrid
  rw [if_neg htrim]
  simp only [hok, hutr]
  exact placeTiles_false_overflow ps 0 0 emptyGrid [] (by omega) (by omega) (by omega)

/-- A 36-line script of `else` commands, one more than the capacity. -/
def overflowScript : String := joinNl (List.replicate 36 "else")

/-- The parsed form of `overflowScript`. -/
def overflowParsed : List Parsed :=
  (List.range 36).map (fun i =>
    { tile := some ⟨.else', 0⟩, isThread := false, lineNum := i + 1 })

/-- Witness for claim C4, at a 36-command script. -/
theorem claimC4_overflowOnTooManyCommands_witness :
    trimStr overflowScript ≠ "" ∧
    parseLines (preprocess overflowScript) 0 = .ok overflowParsed ∧
    maxGridCapacity < totalTiles overflowParsed ∧
    ((parseCodeToGrid overflowScript).success = false ∧
      (parseCodeToGrid overflowScript).error =
        some "Code exceeds grid size (7 rows maximum)") :=
  ⟨by decide, by rfl, by decide,
    claimC4_overflowOnTooManyCommands overflowScript overflowParsed
      (by decide) (by rfl) (by decide)⟩

/-- Claim C5: for a script with no thread markers, all lines parsing and
at most 35 tokens, placement succeeds and is order-preserving: the `i`-th
token occupies cell `(i / 5, i % 5)` of the grid in row-major order, and
all later cells are empty. -/
theorem claimC5_densePlacementRowMajor :
    ∀ (s : String) (ps : List Parsed),
      trimStr s ≠ "" →
      parseLines (preprocess s) 0 = .ok ps →
      (∀ p ∈ ps, p.isThread = false) →
      totalTiles ps ≤ maxGridCapacity →
      (parseCodeToGrid s).success = true ∧
      (parseCodeToGrid s).error = none ∧
      (∀ i, (hi : i < (tilesOf ps).length) →
        getCell (parseCodeToGrid s).grid (i / 5) (i % 5) =
          some ((tilesOf ps).get ⟨i, hi⟩)) ∧
      (∀ i, (tilesOf ps).length ≤ i → i < 35 →
        getCell (parseCodeToGrid s).grid (i / 5) (i % 5) = none) := by
  intro s ps htrim hok hnth htot
  have htot' : totalTiles ps ≤ 35 := htot
  have hlen : (tilesOf ps).length ≤ 35 := by rw [← totalTiles_eq_length]; exact htot'
  have hnothreads : hasThreads ps = false := by
    unfold hasThreads
    rw [List.any_eq_false]
    intro p hp
    simp [hnth p hp]
  have hutr : useThreadRowsFor ps = false := by
    unfold useThreadRowsFor
    rw [if_neg]
    rintro ⟨h1, -⟩
    rw [hnothreads] at h1
    exact Bool.noConfusion h1
  obtain ⟨hs, he, hg⟩ := placeTiles_false_ok ps 0 0 emptyGrid [] (by omega) (by omega)
  unfold parseCodeToGrid
  rw [if_neg htrim]
  simp only [hok, hutr]
  refine ⟨hs, he, ?_, ?_⟩
  · intro i hi
    rw [hg]
    have := writeTiles_get (tilesOf ps) emptyGrid 0 i gridWF_empty (by omega) hi
    simpa using this
  · intro i hge hlt
    rw [hg]
    rw [writeTiles_untouched (tilesOf ps) emptyGrid 0 i (by omega)]
    exact getCell_empty _ _

/-- A two-command script with no thread markers. -/
def denseScript : String := "play 1\nplay 2"

/-- The parsed form of `denseScript`. -/
def denseParsed : List Parsed :=
  [{ tile := some ⟨.play, 0⟩, isThread := false, lineNum := 1 },
   { tile := some ⟨.play, 1⟩, isThread := false, lineNum := 2 }]

/-- Witness for claim C5, at the two-command script `play 1`, `play 2`. -/
theorem claimC5_densePlacementRowMajor_witness :
    trimStr denseScript ≠ "" ∧
    parseLines (preprocess denseScript) 0 = .ok denseParsed ∧
    (∀ p ∈ denseParsed, p.isThread = false) ∧
    totalTiles denseParsed ≤ maxGridCapacity ∧
    ((parseCodeToGrid denseScript).success = true ∧
      (parseCodeToGrid denseScript).error = none ∧
      (∀ i, (hi : i < (tilesOf denseParsed).length) →
        getCell (parseCodeToGrid denseScript).grid (i / 5) (i % 5) =
          some ((tilesOf denseParsed).get ⟨i, hi⟩)) ∧
      (∀ i, (tilesOf denseParsed).length ≤ i → i < 35 →
        getCell (parseCodeToGrid denseScript).grid (i / 5) (i % 5) = none)) :=
  ⟨by decide, by rfl, by decide, by decide,
    claimC5_densePlacementRowMajor denseScript denseParsed
      (by decide) (by rfl) (by decide) (by decide)⟩

/-- Claim C7: a script with a malformed line fails on the first offending
non-blank line with error `Line <n>: <reason>`, where `n` is that line's
one-based position among the non-blank lines and `<reason>` is the
grammar's message; no later lines influence the result (the suffix is
arbitrary), and the failure result carries the empty grid.  In
particular `if x < 9` fails with `If condition must be between 1 and 8`
anchored to its line. -/
theorem claimC7_firstErrorLineAnchored :
    ∀ (s : String) (pre : List String) (bad : String) (suf : List String) (e : String),
      trimStr s ≠ "" →
      preprocess s = pre ++ bad :: suf →
      (∀ l ∈ pre, (parseLine (trimStr l)).success = true) →
      (parseLine (trimStr bad)).success = false →
      (parseLine (trimStr bad)).error = some e →
      parseCodeToGrid s =
        { success := false, grid := emptyGrid,
          error := some ("Line " ++ toString (pre.length + 1) ++ ": " ++ e) } := by
  intro s pre bad suf e htrim hsplit hpre hfail herr
  have hbad : trimStr bad ≠ "" := by
    apply mem_preprocess_trim_ne s
    rw [hsplit]
    exact List.mem_append.2 (Or.inr (List.mem_cons_self bad suf))
  have hpre' : ∀ l ∈ pre, trimStr l ≠ "" ∧ (parseLine (trimStr l)).success = true := by
    intro l hl
    refine ⟨?_, hpre l hl⟩
    apply mem_preprocess_trim_ne s
    rw [hsplit]
    exact List.mem_append.2 (Or.inl hl)
  unfold parseCodeToGrid
  rw [if_neg htrim, hsplit]
  rw [parseLines_first_error suf bad e hbad hfail herr pre 0 hpre']
  rw [show 0 + pre.length + 1 = pre.length + 1 by omega]

/-- Witness for claim C7, at the one-line script `if x < 9`. -/
theorem claimC7_firstErrorLineAnchored_witness :
    trimStr "if x < 9" ≠ "" ∧
    preprocess "if x < 9" = [] ++ "if x < 9" :: [] ∧
    (∀ l ∈ ([] : List String), (parseLine (trimStr l)).success = true) ∧
    (parseLine (trimStr "if x < 9")).success = false ∧
    (parseLine (trimStr "if x < 9")).error = some "If condition must be between 1 and 8" ∧
    parseCodeToGrid "if x < 9" =
      { success := false, grid := emptyGrid,
        error := some ("Line " ++ toString (List.length ([] : List String) + 1) ++ ": " ++
          "If condition must be between 1 and 8") } :=
  ⟨by decide, by decide, by decide, by decide, by decide,
    claimC7_firstErrorLineAnchored "if x < 9" [] "if x < 9" [] _
      (by decide) (by decide) (by decide) (by decide) (by decide)⟩

/-- Claim C9: the grammar's numeric-argument check accepts non-canonical
numerals, because arguments are decoded with `parseInt` and only the
decoded value is range-checked: `play 3abc`, `loop 3.7` and `delay 08`
all parse, with param equal to the integer prefix minus 1 (2, 2 and 7
respectively). -/
theorem claimC9_nonCanonicalNumerals :
    parseLine "play 3abc" = { success := true, tile := some ⟨.play, 2⟩ } ∧
    parseLine "loop 3.7" = { success := true, tile := some ⟨.loop, 2⟩ } ∧
    parseLine "delay 08" = { success := true, tile := some ⟨.delay, 7⟩ } := by
  decide

/-- Claim C3: for every empty or whitespace-only input script the
placement engine succeeds and returns the fixed canonical demonstration
grid — thread1 at (0,0), loop with param 2 at (0,1), play with param 1
at (0,2), endloop at (0,3), every other cell of the 7 × 5 grid empty. -/
theorem claimC3_emptyScriptDemoGrid : ∀ s : String, trimStr s = "" →
    parseCodeToGrid s = { success := true, grid := demoGrid, error := none } ∧
    getCell demoGrid 0 0 = some ⟨.thread1, 0⟩ ∧
    getCell demoGrid 0 1 = some ⟨.loop, 2⟩ ∧
    getCell demoGrid 0 2 = some ⟨.play, 1⟩ ∧
    getCell demoGrid 0 3 = some ⟨.endloop, 0⟩ ∧
    (∀ r, r < 7 → ∀ c, c < 5 → ¬(r = 0 ∧ c < 4) → getCell demoGrid r c = none) := by
  intro s h
  refine ⟨?_, by decide, by decide, by decide, by decide, by decide⟩
  unfold parseCodeToGrid
  rw [if_pos h]

/-- Witness for claim C3, at the whitespace-only script `" \n\t "`. -/
theorem claimC3_emptyScriptDemoGrid_witness :
    trimStr " \n\t " = "" ∧
    parseCodeToGrid " \n\t " = { success := true, grid := demoGrid, error := none } :=
  ⟨by decide, (claimC3_emptyScriptDemoGrid " \n\t " (by decide)).1⟩

/-- Claim C1: round-trip identity through rendering and re-parsing.
Parsing the vocabulary command of every non-parameterized kind yields
exactly that kind with param 0, and for every parameterized kind and
param in 0..7, parsing the canonical text rendered by `getTileCommand`
yields exactly the same token back. -/
theorem claimC1_roundTrip : ∀ k : TokenKind,
    ((TILE_INFO k).rotatable = false →
      parseLine (TILE_INFO k).command =
        { success := true, tile := some ⟨k, 0⟩, error := none }) ∧
    ((TILE_INFO k).rotatable = true → ∀ p, p < 8 →
      parseLine (getTileCommand ⟨k, p⟩) =
        { success := true, tile := some ⟨k, p⟩, error := none }) := by
  decide

/-- Witness for claim C1, at the fixed-keyword kind `else` and at the
parameterized token `play` with param 3 (canonical text `play 4`). -/
theorem claimC1_roundTrip_witness :
    ((TILE_INFO TokenKind.else').rotatable = false ∧
      parseLine (TILE_INFO TokenKind.else').command =
        { success := true, tile := some ⟨TokenKind.else', 0⟩, error := none }) ∧
    ((TILE_INFO TokenKind.play).rotatable = true ∧ 3 < 8 ∧
      parseLine (getTileCommand ⟨TokenKind.play, 3⟩) =
        { success := true, tile := some ⟨TokenKind.play, 3⟩, error := none }) :=
  ⟨⟨by decide, (claimC1_roundTrip TokenKind.else').1 (by decide)⟩,
   ⟨by decide, by decide, (claimC1_roundTrip TokenKind.play).2 (by decide) 3 (by decide)⟩⟩

/-- Claim C6: the script synthesizer walks the grid in row-major order
with `currentThread` initialized to 0 and appends each command to the
thread the tile switches into (`thread1` to list 0, `thread2` to list 1,
`thread3` to list 2, every other tile to the active thread):
`generateCode` equals the fold of that switch-then-append step over the
row-major non-empty cells. -/
theorem claimC6_synthesizerSwitchInto : ∀ g : Grid, generateCode g = synthSpec g := by
  have hfun : (fun (st : List (List String) × Nat) (tile : GridTile) =>
      generateCodeCell tile st) =
      (fun st tile =>
        let ct := switchThread st.2 tile
        (pushThread st.1 ct (getTileCommand tile), ct)) := by
    funext st tile
    simpa using generateCodeCell_eq tile st
  intro g
  unfold generateCode synthSpec
  rw [← hfun]
  suffices h : ∀ st : List (List String) × Nat,
      g.foldl (fun st rowCells =>
        rowCells.foldl (fun st cell => match cell with
          | some tile => generateCodeCell tile st
          | none => st) st) st =
      (gridCellsRowMajor g).foldl (fun st tile => generateCodeCell tile st) st by
    rw [h]
  induction g with
  | nil => intro st; rfl
  | cons row rest ih =>
    intro st
    simp only [List.foldl_cons, gridCellsRowMajor, List.map_cons, List.flatten_cons,
      List.foldl_append]
    rw [generateCode_row_eq, ih]
    rfl

/-- Claim C8: every token the grammar produces satisfies the param
invariant `0 <= param <= 7` with param 0 for non-parameterized kinds, and
the invariant is preserved by the rotation-cycling operation, which maps
param to `(param + 1) % 8` and leaves non-rotatable tiles unchanged. -/
theorem claimC8_paramInvariant :
    (∀ (line : String) (t : GridTile), (parseLine line).tile = some t → tileInv t) ∧
    (∀ t : GridTile, tileInv t → tileInv (rotateTile t)) := by
  constructor
  · intro line t h
    unfold parseLine at h
    generalize wsSplit line = parts at h
    unfold parseLineParts at h
    by_cases c1 : partAt parts 0 = "thread"
    · rw [if_pos c1] at h; exact parseThread_inv _ _ h
    rw [if_neg c1] at h
    by_cases c2 : partAt parts 0 = "loop"
    · rw [if_pos c2] at h; exact parseLoop_inv _ _ h
    rw [if_neg c2] at h
    by_cases c3 : partAt parts 0 = "end" ∧ partAt parts 1 = "loop"
    · rw [if_pos c3] at h; injection h with h; subst h; exact ⟨Nat.zero_le 7, fun _ => rfl⟩
    rw [if_neg c3] at h
    by_cases c4 : partAt parts 0 = "play"
    · rw [if_pos c4] at h; exact parsePlay_inv _ _ h
    rw [if_neg c4] at h
    by_cases c5 : partAt parts 0 = "delay"
    · rw [if_pos c5] at h; exact parseDelay_inv _ _ h
    rw [if_neg c5] at h
    by_cases c6 : partAt parts 0 = "x"
    · rw [if_pos c6] at h; exact parseXCmd_inv _ _ h
    rw [if_neg c6] at h
    by_cases c7 : partAt parts 0 = "if"
    · rw [if_pos c7] at h; exact parseIfCmd_inv _ _ h
    rw [if_neg c7] at h
    by_cases c8 : partAt parts 0 = "else"
    · rw [if_pos c8] at h; injection h with h; subst h; exact ⟨Nat.zero_le 7, fun _ => rfl⟩
    rw [if_neg c8] at h
    by_cases c9 : partAt parts 0 = "end" ∧ partAt parts 1 = "if"
    · rw [if_pos c9] at h; injection h with h; subst h; exact ⟨Nat.zero_le 7, fun _ => rfl⟩
    rw [if_neg c9] at h
    by_cases c10 : partAt parts 0 = "function"
    · rw [if_pos c10] at h; injection h with h; subst h; exact ⟨Nat.zero_le 7, fun _ => rfl⟩
    rw [if_neg c10] at h
    by_cases c11 : partAt parts 0 = "end" ∧ partAt parts 1 = "function"
    · rw [if_pos c11] at h; injection h with h; subst h; exact ⟨Nat.zero_le 7, fun _ => rfl⟩
    rw [if_neg c11] at h
    by_cases c12 : partAt parts 0 = "call" ∧ partAt parts 1 = "function"
    · rw [if_pos c12] at h; injection h with h; subst h; exact ⟨Nat.zero_le 7, fun _ => rfl⟩
    rw [if_neg c12] at h
    exact Option.noConfusion h
  · intro t ht
    rcases t with ⟨ty, r⟩
    obtain ⟨h7, h0⟩ := ht
    dsimp only at h7 h0
    cases ty <;> constructor <;>
      simp_all [rotateTile, TILE_INFO, tileInv, eightValues] <;> omega

/-- Witness for claim C8: the grammar output for `play 3` satisfies the
invariant, and the invariant survives rotating that tile. -/
theorem claimC8_paramInvariant_witness :
    ((parseLine "play 3").tile = some ⟨TokenKind.play, 2⟩ ∧ tileInv ⟨TokenKind.play, 2⟩) ∧
    tileInv (rotateTile ⟨TokenKind.play, 2⟩) :=
  ⟨⟨by decide, claimC8_paramInvariant.1 "play 3" ⟨TokenKind.play, 2⟩ (by decide)⟩,
   claimC8_paramInvariant.2 ⟨TokenKind.play, 2⟩
     (claimC8_paramInvariant.1 "play 3" ⟨TokenKind.play, 2⟩ (by decide))⟩

example : parseLine "play 3" = { success := true, tile := some ⟨.play, 2⟩ } := by decide
example : parseLine "loop 3 times" = { success := true, tile := some ⟨.loop, 2⟩ } := by decide
example : parseLine "if x < 9" =
    { success := false, error := some "If condition must be between 1 and 8" } := by decide
example : parseLine "x = x + 1" = { success := true, tile := some ⟨.add, 0⟩ } := by decide
example : parseLine "end function" = { success := true, tile := some ⟨.endfunction, 0⟩ } := by decide
example : parseLine "bogus" =
    { success := false, error := some "Unknown command: \"bogus\"" } := by decide
example : parseCodeToGrid "" = { success := true, grid := demoGrid, error := none } := by decide
example : (parseCodeToGrid "if x < 9").error =
    some "Line 1: If condition must be between 1 and 8" := by decide
example :
    getCell (parseCodeToGrid "thread 1\nloop 3 times\nplay 2\nend loop").grid 0 1 =
      some ⟨.loop, 2⟩ := by decide
example : getTileCommand ⟨.loop, 2⟩ = "loop 3 times" := by decide
example : generateCode demoGrid =
    [["thread 1", "loop 3 times", "play 2", "end loop"], [], []] := by decide

end Tibbl
